import Mathlib

/-!
# A shallow embedding of the `tiniargs` argument parser

This file embeds the TypeScript sources of the `tiniargs` repository
(`src/index.ts`) into Lean 4 and proves properties of the embedding.

Modelling conventions:
* JavaScript strings are Lean `String`s (a structure over `List Char`).
* `string | boolean | number` flag values are the inductive `FlagValue`;
  JavaScript numbers produced by `parseInt(_, 10)` are modelled as exact
  integers (`Int`), which agrees with JavaScript for values below 2^53.
* Thrown exceptions are modelled with `Except TinError`.
* `arg.match(FLAG_REGEX)` for the unanchored regex `--?(\w+)(?:=(.*))?`
  is modelled by an explicit leftmost-match scanner (`findMatch`): the
  regex matches at the leftmost position where a dash run is followed by
  a word character; `--?` is greedy (two dashes preferred), `(\w+)` takes
  the maximal word-character run, and `(?:=(.*))?` captures the rest of
  the line after a literal `=` when present.
-/

namespace Tiniargs

/-- `string | boolean | number` (the `FlagValue` union of `index.ts`). -/
inductive FlagValue where
  | str (s : String)
  | boolean (b : Bool)
  | num (n : Int)
deriving DecidableEq, Repr

/-- JavaScript `typeof` restricted to `FlagValue`. -/
def typeofValue : FlagValue → String
  | .str _ => "string"
  | .boolean _ => "boolean"
  | .num _ => "number"

/-- The `FlagSchema` record of `index.ts` (`short`, `required` and
`defaultValue` are optional fields). -/
structure FlagSchema where
  long : String
  short : Option String
  required : Option Bool
  defaultValue : Option FlagValue
  valueType : String
deriving DecidableEq, Repr

/-- The errors thrown by `index.ts`, with their structured payloads.
`flagParse` keeps the message, the `key` and the raw `givenValue`
(`none` models a JavaScript `undefined` given value). -/
inductive TinError where
  | unknownFlag (key : String) (short : Bool)
  | duplicateFlag (key : String) (first second : FlagValue)
  | flagParse (msg : String) (key : String) (given : Option String)
  | schemaValidation (msg : String)
  | missingRequired (key : String)
  | invalidDefault (key : String) (valueType : String) (defaultValueType : String)
deriving DecidableEq, Repr

/-- The `ParsedArgs` result record. `flags` is the `Record<string, FlagValue>`
object, modelled as an association list in insertion order. -/
structure ParsedArgs where
  positionals : List String
  flags : List (String × FlagValue)
deriving DecidableEq, Repr

/-- List-level string prefix test; models JavaScript `s.startsWith(p)`. -/
def listStartsWith : List Char → List Char → Bool
  | _, [] => true
  | [], _ :: _ => false
  | c :: cs, p :: ps => c = p && listStartsWith cs ps

/-- JavaScript `s.startsWith(p)`. -/
def strStartsWith (s p : String) : Bool :=
  listStartsWith s.data p.data

/-- JavaScript `\w`: `[A-Za-z0-9_]`. -/
def wordChar (c : Char) : Bool :=
  c.isAlpha || c.isDigit || c = '_'

/-- JavaScript line terminators (which `.` does not match). -/
def isLineTerm (c : Char) : Bool :=
  c = '\n' || c = '\r' || c = '\u2028' || c = '\u2029'

/-- Once `FLAG_REGEX` has committed to a position whose next character is a
word character, the key is the maximal word run and, when a literal `=`
follows, the value is the rest of the line. -/
def matchTail (rest : List Char) : String × Option String :=
  let key := rest.takeWhile wordChar
  match rest.dropWhile wordChar with
  | '=' :: vrest => (key.asString, some ((vrest.takeWhile (fun c => !isLineTerm c)).asString))
  | _ => (key.asString, none)

/-- Leftmost match of the unanchored `FLAG_REGEX`, i.e. `--?(\w+)(?:=(.*))?`:
a match starts at the first position holding a dash followed by a word
character, or two dashes followed by a word character (greedy `--?`). -/
def findMatch : List Char → Option (String × Option String)
  | [] => none
  | c :: rest =>
    if c = '-' then
      match rest with
      | c2 :: rest2 =>
        if c2 = '-' then
          match rest2 with
          | c3 :: _ => if wordChar c3 then some (matchTail rest2) else findMatch rest
          | [] => findMatch rest
        else if wordChar c2 then some (matchTail rest)
        else findMatch rest
      | [] => none
    else findMatch rest

/-- `arg.match(FLAG_REGEX)` destructured as `(key, val)`; `none` models the
regex not matching (`didMatch` falsy). -/
def jsMatchFlag (arg : String) : Option (String × Option String) :=
  findMatch arg.data

/-- Decimal value of a digit run. -/
def digitsToNat (ds : List Char) : Nat :=
  ds.foldl (fun a c => a * 10 + (c.toNat - 48)) 0

/-- Optional leading sign of `parseInt`: the sign and the characters the
digit scan starts from. -/
def signSplit (cs : List Char) : Int × List Char :=
  match cs with
  | c :: r => if c = '-' then (-1, r) else if c = '+' then (1, r) else (1, cs)
  | [] => (1, cs)

/-- JavaScript `parseInt(s, 10)`: skip leading whitespace, optional sign,
then the maximal leading digit run; `none` models `NaN`. -/
def jsParseInt (s : String) : Option Int :=
  let cs := s.data.dropWhile Char.isWhitespace
  let sr := signSplit cs
  let ds := sr.2.takeWhile Char.isDigit
  if ds.isEmpty then none else some (sr.1 * (digitsToNat ds : Int))

/-- Rendering of a possibly-`undefined` string in a template literal. -/
def jsShow (v : Option String) : String :=
  v.getD "undefined"

/-- `NUMBER_REGEX = /^\d+$/` applied to a defined value. -/
def numberRegexTest (v : String) : Bool :=
  !v.data.isEmpty && v.data.all Char.isDigit

/-- `parseFlagNoSchema` of `index.ts`. -/
def parseFlagNoSchema (arg : String) : List (Option (String × FlagValue)) :=
  match jsMatchFlag arg with
  | none => [none]
  | some (key, val) =>
    match val with
    | some v =>
      if numberRegexTest v then
        match jsParseInt v with
        | some n => [some (key, FlagValue.num n)]
        | none => [some (key, FlagValue.str v)]
      else [some (key, FlagValue.str v)]
    | none => [some (key, FlagValue.boolean true)]

def shortFormMsg (fs : FlagSchema) : String :=
  let vt := fs.valueType
  let lg := fs.long
  s!"Cannot specify {vt} flag \"{lg}\" in short form"

def numErrMsg (key : String) (val : Option String) : String :=
  let v := jsShow val
  s!"Failed to parse numeric flag \"{key}\" (given value \"{v}\")"

def boolErrMsg (key v : String) : String :=
  s!"Invalid value \"{v}\" for boolean flag \"{key}\". Expected true or false"

def strErrMsg (key : String) : String :=
  s!"Expected flag \"{key}\" to be a string but got nothing"

/-- Lookup of a short flag in the schema list:
`schemas.find((s) => s.short === char)`. -/
def shortLookup (schemas : List FlagSchema) (c : Char) : Option FlagSchema :=
  schemas.find? (fun s => s.short == some c.toString)

/-- Lookup of a long flag in the schema list:
`schemas.find((s) => s.long === key)`. -/
def longLookup (schemas : List FlagSchema) (key : String) : Option FlagSchema :=
  schemas.find? (fun s => s.long == key)

/-- The short-stacking loop of `parseFlagWithShema`: for each character of
the key, look the character up as a short flag; throw on an unknown
character or a non-boolean one, else emit `(long, true)`. -/
def parseShortChars (schemas : List FlagSchema) (val : Option String) :
    List Char → Except TinError (List (Option (String × FlagValue)))
  | [] => .ok []
  | c :: rest =>
    match shortLookup schemas c with
    | none => .error (.unknownFlag c.toString true)
    | some fs =>
      if fs.valueType ≠ "boolean" then
        .error (.flagParse (shortFormMsg fs) c.toString val)
      else
        match parseShortChars schemas val rest with
        | .error e => .error e
        | .ok more => .ok (some (fs.long, FlagValue.boolean true) :: more)

/-- `parseFlagWithShema` of `index.ts` (the argument-level parser obtained
after supplying the validated schema list). -/
def parseFlagWithSchema (schemas : List FlagSchema) (arg : String) :
    Except TinError (List (Option (String × FlagValue))) :=
  match jsMatchFlag arg with
  | none => .ok [none]
  | some (key, val) =>
    if strStartsWith arg "--" = false then
      parseShortChars schemas val key.data
    else
      match longLookup schemas key with
      | none => .error (.unknownFlag key false)
      | some fs =>
        match fs.valueType with
        | "number" =>
          match jsParseInt (jsShow val) with
          | none => .error (.flagParse (numErrMsg key val) key val)
          | some n => .ok [some (fs.long, FlagValue.num n)]
        | "boolean" =>
          match val with
          | some v =>
            if v != "" && v != "true" && v != "false" then
              .error (.flagParse (boolErrMsg key v) key val)
            else
              .ok [some (fs.long, FlagValue.boolean (v == "" || v == "true"))]
          | none => .ok [some (fs.long, FlagValue.boolean true)]
        | "string" =>
          match val with
          | some v =>
            if v = "" then .error (.flagParse (strErrMsg key) key val)
            else .ok [some (fs.long, FlagValue.str v)]
          | none => .error (.flagParse (strErrMsg key) key val)
        | _ => .ok [none]

def longLenMsg (lg : String) : String :=
  s!"Invalid long flag \"{lg}\": flag must be greater than 1 character"

def dupLongMsg (lg : String) : String :=
  s!"Duplicate long flag \"{lg}\""

def shortLenMsg (lg : String) : String :=
  s!"Invalid flag \"{lg}\": short flag must be exactly 1 character"

def dupShortMsg (sh : String) : String :=
  s!"Duplicate short flag \"{sh}\""

def valueTypeMsg (lg vt : String) : String :=
  s!"Invalid value type for flag \"{lg}\": \"{vt}\""

/-- The six per-entry checks of `validateSchema`, in source order, against
the sets of already-seen long and short names.  Returns the error of the
first failing check, `none` when the entry passes. -/
def checkEntry (longs shorts : List String) (s : FlagSchema) : Option TinError :=
  if s.long.length ≤ 1 then
    some (.schemaValidation (longLenMsg s.long))
  else if longs.contains s.long then
    some (.schemaValidation (dupLongMsg s.long))
  else if (match s.short with | some sh => sh.length != 1 | none => false) then
    some (.schemaValidation (shortLenMsg s.long))
  else if (match s.short with | some sh => shorts.contains sh | none => false) then
    some (.schemaValidation (dupShortMsg (s.short.getD "")))
  else if (match s.defaultValue with | some d => typeofValue d != s.valueType | none => false) then
    some (.invalidDefault s.long s.valueType (typeofValue (s.defaultValue.getD (FlagValue.str ""))))
  else if !(["string", "number", "boolean"].contains s.valueType) then
    some (.schemaValidation (valueTypeMsg s.long s.valueType))
  else
    none

/-- The `forEach` loop of `validateSchema`, carrying the seen-name sets. -/
def validateSchemaAux (longs shorts : List String) :
    List FlagSchema → Option TinError
  | [] => none
  | s :: rest =>
    match checkEntry longs shorts s with
    | some e => some e
    | none =>
      validateSchemaAux (longs ++ [s.long])
        (shorts ++ (match s.short with | some sh => [sh] | none => [])) rest

/-- `validateSchema` of `index.ts`: throws the first failing check's error,
returns the input sequence unchanged when every entry passes. -/
def validateSchema (schemas : List FlagSchema) : Except TinError (List FlagSchema) :=
  match validateSchemaAux [] [] schemas with
  | some e => .error e
  | none => .ok schemas

/-- Lookup in the `flags` accumulator object (`flags[key]`). -/
def lookupFlag : List (String × FlagValue) → String → Option FlagValue
  | [], _ => none
  | (k, v) :: rest, key => if k = key then some v else lookupFlag rest key

/-- The merge loop of `tiniargs`: insert each emitted pair in order, throwing
`DuplicateFlagError` with the stored first value and the incoming second
value when the key is already present. -/
def mergeFlags : List (String × FlagValue) → List (String × FlagValue) →
    Except TinError (List (String × FlagValue))
  | acc, [] => .ok acc
  | acc, (k, v) :: rest =>
    match lookupFlag acc k with
    | none => mergeFlags (acc ++ [(k, v)]) rest
    | some v0 => .error (.duplicateFlag k v0 v)

/-- `args.map(flagParseFn)` for a throwing parse function: the first thrown
error aborts the whole map. -/
def mapParse (f : String → Except TinError (List (Option (String × FlagValue)))) :
    List String → Except TinError (List (List (Option (String × FlagValue))))
  | [] => .ok []
  | a :: rest =>
    match f a with
    | .error e => .error e
    | .ok x =>
      match mapParse f rest with
      | .error e => .error e
      | .ok xs => .ok (x :: xs)

/-- `args.map(flagParseFn).flat().filter((f) => f !== undefined)`, including
the schema validation folded into `flagParseFn` when a schema is given. -/
def emittedPairs (args : List String) :
    Option (List FlagSchema) → Except TinError (List (String × FlagValue))
  | none => .ok ((args.map parseFlagNoSchema).flatten.filterMap id)
  | some sch =>
    match validateSchema sch with
    | .error e => .error e
    | .ok validated =>
      match mapParse (parseFlagWithSchema validated) args with
      | .error e => .error e
      | .ok ll => .ok (ll.flatten.filterMap id)

/-- The flags object right after the duplicate-detecting merge. -/
def mergedFlags (args : List String) (schema : Option (List FlagSchema)) :
    Except TinError (List (String × FlagValue)) :=
  match emittedPairs args schema with
  | .error e => .error e
  | .ok pairs => mergeFlags [] pairs

/-- The required-flag pass: `schema.filter((s) => s.required === true)`
throws `MissingRequiredFlagError` at the first required entry whose long
name is absent. -/
def requiredCheck (sch : List FlagSchema) (flags : List (String × FlagValue)) :
    Except TinError Unit :=
  match (sch.filter (fun s => s.required == some true)).find?
      (fun s => lookupFlag flags s.long == none) with
  | some s => .error (.missingRequired s.long)
  | none => .ok ()

/-- The default-filling loop body over the already-filtered entries. -/
def fillDefaults : List FlagSchema → List (String × FlagValue) →
    List (String × FlagValue)
  | [], fl => fl
  | s :: rest, fl =>
    fillDefaults rest
      (if lookupFlag fl s.long = none then
        match s.defaultValue with
        | some d => fl ++ [(s.long, d)]
        | none => fl
      else fl)

/-- `schema.filter((s) => !s.required && s.defaultValue !== undefined)`
followed by the insert-if-absent loop. -/
def applyDefaults (sch : List FlagSchema) (flags : List (String × FlagValue)) :
    List (String × FlagValue) :=
  fillDefaults (sch.filter (fun s => s.required != some true && s.defaultValue != none)) flags

/-- `args.filter((a) => !a.startsWith("-"))`. -/
def positionalsOf (args : List String) : List String :=
  args.filter (fun a => !strStartsWith a "-")

/-- The `tiniargs` entry point of `index.ts`. -/
def tiniargs (args : List String) (schema : Option (List FlagSchema)) :
    Except TinError ParsedArgs :=
  match emittedPairs args schema with
  | .error e => .error e
  | .ok pairs =>
    match mergeFlags [] pairs with
    | .error e => .error e
    | .ok flags =>
      match schema with
      | none => .ok ⟨positionalsOf args, flags⟩
      | some sch =>
        match requiredCheck sch flags with
        | .error e => .error e
        | .ok _ => .ok ⟨positionalsOf args, applyDefaults sch flags⟩

/-! Derived predicates used to state properties of the embedding. -/

/-- The order-independent part of schema-entry validity: length and type
constraints of one entry, ignoring the cross-entry uniqueness checks. -/
def validEntry (s : FlagSchema) : Bool :=
  decide (1 < s.long.length) &&
  (match s.short with | some sh => sh.length == 1 | none => true) &&
  (match s.defaultValue with | some d => typeofValue d == s.valueType | none => true) &&
  ["string", "number", "boolean"].contains s.valueType

/-- Whole-schema validity, phrased order-independently: every entry passes
its local checks, long names are pairwise distinct, and present short
names are pairwise distinct. -/
def validSchema (l : List FlagSchema) : Prop :=
  (∀ s ∈ l, validEntry s = true) ∧
  (l.map FlagSchema.long).Nodup ∧
  (l.filterMap FlagSchema.short).Nodup

/-- `c` is a declared short flag of boolean value type. -/
def isBoolShort (sch : List FlagSchema) (c : Char) : Bool :=
  match shortLookup sch c with
  | some e => e.valueType == "boolean"
  | none => false

/-- The long name a short character resolves to (meaningful when the
character is declared). -/
def shortLong (sch : List FlagSchema) (c : Char) : String :=
  match shortLookup sch c with
  | some e => e.long
  | none => ""

end Tiniargs

namespace Tiniargs

/-! ## Basic list and character lemmas -/

lemma strData_append (s t : String) : (s ++ t).data = s.data ++ t.data := rfl

lemma asString_data (s : String) : s.data.asString = s := rfl

lemma data_dd : ("--" : String).data = ['-', '-'] := rfl

lemma data_d : ("-" : String).data = ['-'] := rfl

lemma data_eq : ("=" : String).data = ['='] := rfl

lemma takeWhile_append_stop {alpha : Type} (p : alpha → Bool) :
    ∀ (l r : List alpha), (∀ c ∈ l, p c = true) →
      (∀ c cs, r = c :: cs → p c = false) →
      (l ++ r).takeWhile p = l ∧ (l ++ r).dropWhile p = r := by
  intro l
  induction l with
  | nil =>
    intro r _ hr
    cases r with
    | nil => simp
    | cons c cs => simp [List.takeWhile_cons, List.dropWhile_cons, hr c cs rfl]
  | cons a l ih =>
    intro r hl hr
    have ha : p a = true := hl a (by simp)
    have := ih r (fun c hc => hl c (by simp [hc])) hr
    simp [List.takeWhile_cons, List.dropWhile_cons, ha, this.1, this.2]

lemma takeWhile_of_all {alpha : Type} (p : alpha → Bool) (l : List alpha)
    (h : ∀ c ∈ l, p c = true) : l.takeWhile p = l := by
  have := (takeWhile_append_stop p l [] h (by intro c cs hc; cases hc)).1
  simpa using this

lemma dropWhile_of_all {alpha : Type} (p : alpha → Bool) (l : List alpha)
    (h : ∀ c ∈ l, p c = true) : l.dropWhile p = [] := by
  have := (takeWhile_append_stop p l [] h (by intro c cs hc; cases hc)).2
  simpa using this

lemma word_ne_dash {c : Char} (h : wordChar c = true) : c ≠ '-' := by
  intro he; subst he; exact absurd h (by decide)

lemma digit_not_ws {c : Char} (h : c.isDigit = true) : c.isWhitespace = false := by
  cases hw : c.isWhitespace
  · rfl
  · exfalso
    have h4 : ((c = ' ' ∨ c = '\t') ∨ c = '\x0d') ∨ c = '\n' := by
      simpa [Char.isWhitespace] using hw
    rcases h4 with ((rfl | rfl) | rfl) | rfl <;> exact absurd h (by decide)

lemma digit_ne_dash {c : Char} (h : c.isDigit = true) : c ≠ '-' := by
  intro he; subst he; exact absurd h (by decide)

lemma digit_ne_plus {c : Char} (h : c.isDigit = true) : c ≠ '+' := by
  intro he; subst he; exact absurd h (by decide)

/-! ## Lemmas about the regex-match model -/

lemma findMatch_single (c : Char) (cs : List Char) (hc : wordChar c = true) :
    findMatch ('-' :: c :: cs) = some (matchTail (c :: cs)) := by
  simp [findMatch, hc, word_ne_dash hc]

lemma findMatch_double (c : Char) (cs : List Char) (hc : wordChar c = true) :
    findMatch ('-' :: '-' :: c :: cs) = some (matchTail (c :: cs)) := by
  simp [findMatch, hc]

lemma matchTail_noval (k : List Char) (hk : ∀ c ∈ k, wordChar c = true) :
    matchTail k = (k.asString, none) := by
  unfold matchTail
  rw [takeWhile_of_all _ _ hk, dropWhile_of_all _ _ hk]

lemma matchTail_eq_val (k v : List Char) (hk : ∀ c ∈ k, wordChar c = true)
    (hv : ∀ c ∈ v, isLineTerm c = false) :
    matchTail (k ++ '=' :: v) = (k.asString, some v.asString) := by
  have hstop : ∀ (c : Char) cs, ('=' :: v : List Char) = c :: cs → wordChar c = false := by
    intro c cs hc
    cases hc
    decide
  have h := takeWhile_append_stop wordChar k ('=' :: v) hk hstop
  unfold matchTail
  rw [h.1, h.2]
  have : v.takeWhile (fun c => !isLineTerm c) = v :=
    takeWhile_of_all _ v (by intro c hc; simp [hv c hc])
  simp [this]

lemma jsMatch_short (k : String) (h1 : k.data ≠ [])
    (h2 : ∀ c ∈ k.data, wordChar c = true) :
    jsMatchFlag ("-" ++ k) = some (k, none) := by
  obtain ⟨c, cs, hk⟩ := List.exists_cons_of_ne_nil h1
  have hd : ("-" ++ k).data = '-' :: k.data := by
    rw [strData_append, data_d]; rfl
  unfold jsMatchFlag
  rw [hd, hk, findMatch_single c cs (h2 c (by rw [hk]; exact List.mem_cons_self _ _)),
    ← hk, matchTail_noval k.data h2, asString_data]

lemma findMatch_double_suffix (k : String) (r : List Char) (h1 : k.data ≠ [])
    (h2 : ∀ c ∈ k.data, wordChar c = true) :
    findMatch ('-' :: '-' :: (k.data ++ r)) = some (matchTail (k.data ++ r)) := by
  obtain ⟨c, cs, hk⟩ := List.exists_cons_of_ne_nil h1
  rw [hk, List.cons_append,
    findMatch_double c (cs ++ r) (h2 c (by rw [hk]; exact List.mem_cons_self _ _))]

lemma jsMatch_long_val (k v : String) (h1 : k.data ≠ [])
    (h2 : ∀ c ∈ k.data, wordChar c = true)
    (hv : ∀ c ∈ v.data, isLineTerm c = false) :
    jsMatchFlag ("--" ++ k ++ "=" ++ v) = some (k, some v) := by
  have hd : ("--" ++ k ++ "=" ++ v).data = '-' :: '-' :: (k.data ++ '=' :: v.data) := by
    simp [strData_append, data_dd, data_eq]
  unfold jsMatchFlag
  rw [hd, findMatch_double_suffix k ('=' :: v.data) h1 h2,
    matchTail_eq_val k.data v.data h2 hv, asString_data, asString_data]

lemma jsMatch_long_noval (k : String) (h1 : k.data ≠ [])
    (h2 : ∀ c ∈ k.data, wordChar c = true) :
    jsMatchFlag ("--" ++ k) = some (k, none) := by
  have hd : ("--" ++ k).data = '-' :: '-' :: (k.data ++ []) := by
    simp [strData_append, data_dd]
  unfold jsMatchFlag
  rw [hd, findMatch_double_suffix k [] h1 h2]
  rw [List.append_nil, matchTail_noval k.data h2, asString_data]

lemma jsMatch_long_emptyval (k : String) (h1 : k.data ≠ [])
    (h2 : ∀ c ∈ k.data, wordChar c = true) :
    jsMatchFlag ("--" ++ k ++ "=") = some (k, some "") := by
  have hd : ("--" ++ k ++ "=").data = '-' :: '-' :: (k.data ++ '=' :: []) := by
    simp [strData_append, data_dd, data_eq]
  unfold jsMatchFlag
  rw [hd, findMatch_double_suffix k ('=' :: []) h1 h2,
    matchTail_eq_val k.data [] h2 (by intro c hc; cases hc)]
  rfl

lemma startsWith_dd_true (s : String) (r : List Char) (h : s.data = '-' :: '-' :: r) :
    strStartsWith s "--" = true := by
  unfold strStartsWith
  rw [h, data_dd]
  simp [listStartsWith]

lemma startsWith_dd_false (s : String) (c : Char) (cs : List Char)
    (h : s.data = '-' :: c :: cs) (hc : c ≠ '-') :
    strStartsWith s "--" = false := by
  unfold strStartsWith
  rw [h, data_dd]
  simp [listStartsWith, hc]

lemma startsWith_d_true (s : String) (r : List Char) (h : s.data = '-' :: r) :
    strStartsWith s "-" = true := by
  unfold strStartsWith
  rw [h, data_d]
  simp [listStartsWith]

end Tiniargs

namespace Tiniargs

/-! ## Lemmas about `jsParseInt` -/

lemma jsParseInt_leading_digits (v : String) (ds rest : List Char)
    (hv : v.data = ds ++ rest) (hne : ds ≠ [])
    (hds : ∀ c ∈ ds, c.isDigit = true)
    (hrest : ∀ c cs, rest = c :: cs → c.isDigit = false) :
    jsParseInt v = some ((digitsToNat ds : Int)) := by
  obtain ⟨d, ds', hd⟩ := List.exists_cons_of_ne_nil hne
  have hddig : d.isDigit = true := hds d (by rw [hd]; exact List.mem_cons_self _ _)
  have hdata : v.data = d :: (ds' ++ rest) := by rw [hv, hd, List.cons_append]
  have h1 : v.data.dropWhile Char.isWhitespace = v.data := by
    rw [hdata]
    simp [List.dropWhile_cons, digit_not_ws hddig]
  have h2 : signSplit v.data = (1, v.data) := by
    rw [hdata]
    unfold signSplit
    simp [digit_ne_dash hddig, digit_ne_plus hddig]
  have h3 : v.data.takeWhile Char.isDigit = ds := by
    rw [hv]
    exact (takeWhile_append_stop Char.isDigit ds rest hds hrest).1
  have hds_ne : ds.isEmpty = false := by
    rw [hd]; rfl
  unfold jsParseInt
  simp only [h1, h2, h3, hds_ne]
  simp

lemma jsParseInt_all_digits (v : String) (h1 : v.data ≠ [])
    (h2 : ∀ c ∈ v.data, c.isDigit = true) :
    jsParseInt v = some ((digitsToNat v.data : Int)) :=
  jsParseInt_leading_digits v v.data [] (by simp) h1 h2 (by intro c cs h; cases h)

/-! ## Lemmas about the merge phase -/

lemma lookupFlag_append (l1 l2 : List (String × FlagValue)) (k : String) :
    lookupFlag (l1 ++ l2) k =
      (match lookupFlag l1 k with | some v => some v | none => lookupFlag l2 k) := by
  induction l1 with
  | nil => rfl
  | cons a l1 ih =>
    obtain ⟨k1, v1⟩ := a
    by_cases h : k1 = k
    · simp [lookupFlag, h]
    · simp [lookupFlag, h, ih]

lemma mergeFlags_dup :
    ∀ (pre acc : List (String × FlagValue)) (k : String) (v v0 : FlagValue)
      (rest : List (String × FlagValue)),
      (pre.map Prod.fst).Nodup →
      (∀ kk ∈ pre.map Prod.fst, lookupFlag acc kk = none) →
      lookupFlag (acc ++ pre) k = some v0 →
      mergeFlags acc (pre ++ (k, v) :: rest) = .error (.duplicateFlag k v0 v) := by
  intro pre
  induction pre with
  | nil =>
    intro acc k v v0 rest _ _ hl
    rw [List.append_nil] at hl
    simp [mergeFlags, hl]
  | cons a pre ih =>
    intro acc k v v0 rest hnd hacc hl
    obtain ⟨k1, v1⟩ := a
    have hnd2 : (k1 :: pre.map Prod.fst).Nodup := by
      simpa only [List.map_cons] using hnd
    have hnd' := List.nodup_cons.mp hnd2
    have hk1 : lookupFlag acc k1 = none := hacc k1 (by simp)
    have step : mergeFlags acc (((k1, v1) :: pre) ++ (k, v) :: rest) =
        mergeFlags (acc ++ [(k1, v1)]) (pre ++ (k, v) :: rest) := by
      simp [mergeFlags, hk1]
    rw [step]
    apply ih
    · exact hnd'.2
    · intro kk hkk
      have hne : k1 ≠ kk := by
        intro he
        exact hnd'.1 (he ▸ hkk)
      rw [lookupFlag_append, hacc kk (by simp [hkk])]
      simp [lookupFlag, hne]
    · rw [List.append_assoc]
      simpa using hl

/-! ## Lemmas about short-flag stacking -/

lemma isBoolShort_dest {sch : List FlagSchema} {c : Char}
    (h : isBoolShort sch c = true) :
    ∃ e, shortLookup sch c = some e ∧ e.valueType = "boolean" ∧ shortLong sch c = e.long := by
  unfold isBoolShort at h
  cases hsl : shortLookup sch c with
  | none => rw [hsl] at h; cases h
  | some e =>
    rw [hsl] at h
    refine ⟨e, rfl, by simpa using h, ?_⟩
    unfold shortLong
    rw [hsl]

lemma parseShortChars_all (sch : List FlagSchema) (val : Option String) :
    ∀ (key : List Char), (∀ c ∈ key, isBoolShort sch c = true) →
      parseShortChars sch val key =
        .ok (key.map (fun c => some (shortLong sch c, FlagValue.boolean true))) := by
  intro key
  induction key with
  | nil => intro _; rfl
  | cons c rest ih =>
    intro h
    obtain ⟨e, hsl, hbool, hlong⟩ := isBoolShort_dest (h c (by simp))
    have hrest := ih (fun c2 hc2 => h c2 (by simp [hc2]))
    simp [parseShortChars, hsl, hbool, hrest, hlong]

lemma parseShortChars_unknown (sch : List FlagSchema) (val : Option String) :
    ∀ (pre : List Char) (c : Char) (post : List Char),
      (∀ c2 ∈ pre, isBoolShort sch c2 = true) →
      shortLookup sch c = none →
      parseShortChars sch val (pre ++ c :: post) = .error (.unknownFlag c.toString true) := by
  intro pre
  induction pre with
  | nil =>
    intro c post _ hc
    simp [parseShortChars, hc]
  | cons a pre ih =>
    intro c post hpre hc
    obtain ⟨e, hsl, hbool, _⟩ := isBoolShort_dest (hpre a (by simp))
    have := ih c post (fun c2 h2 => hpre c2 (by simp [h2])) hc
    simp [parseShortChars, hsl, hbool, this]

lemma parseShortChars_nonbool (sch : List FlagSchema) (val : Option String) :
    ∀ (pre : List Char) (c : Char) (post : List Char) (e : FlagSchema),
      (∀ c2 ∈ pre, isBoolShort sch c2 = true) →
      shortLookup sch c = some e →
      e.valueType ≠ "boolean" →
      parseShortChars sch val (pre ++ c :: post) =
        .error (.flagParse (shortFormMsg e) c.toString val) := by
  intro pre
  induction pre with
  | nil =>
    intro c post e _ hc hne
    simp [parseShortChars, hc, hne]
  | cons a pre ih =>
    intro c post e hpre hc hne
    obtain ⟨e2, hsl, hbool, _⟩ := isBoolShort_dest (hpre a (by simp))
    have := ih c post e (fun c2 h2 => hpre c2 (by simp [h2])) hc hne
    simp [parseShortChars, hsl, hbool, this]

end Tiniargs

namespace Tiniargs

/-! ## Lemmas about `validateSchema` -/

lemma not_mem_append_singleton {alpha : Type} {x y : alpha} {l : List alpha} :
    x ∉ l ++ [y] ↔ x ∉ l ∧ x ≠ y := by
  simp [List.mem_append, not_or]

lemma checkEntry_none_iff (longs shorts : List String) (s : FlagSchema) :
    checkEntry longs shorts s = none ↔
      (validEntry s = true ∧ s.long ∉ longs ∧ ∀ sh, s.short = some sh → sh ∉ shorts) := by
  rcases s with ⟨long, short, required, defaultValue, valueType⟩
  rcases short with _ | sh <;> rcases defaultValue with _ | d <;>
    (unfold checkEntry validEntry
     split_ifs with h1 h2 h3 h4 h5 h6 <;> simp_all <;> tauto)

lemma validateSchemaAux_cons (longs shorts : List String) (s : FlagSchema)
    (rest : List FlagSchema) :
    validateSchemaAux longs shorts (s :: rest) =
      (match checkEntry longs shorts s with
       | some e => some e
       | none =>
         validateSchemaAux (longs ++ [s.long])
           (shorts ++ (match s.short with | some sh => [sh] | none => [])) rest) := rfl

lemma validateSchemaAux_cons_none_iff (longs shorts : List String) (s : FlagSchema)
    (rest : List FlagSchema) :
    validateSchemaAux longs shorts (s :: rest) = none ↔
      (checkEntry longs shorts s = none ∧
       validateSchemaAux (longs ++ [s.long])
         (shorts ++ (match s.short with | some sh => [sh] | none => [])) rest = none) := by
  rw [validateSchemaAux_cons]
  cases h : checkEntry longs shorts s <;> simp [h]

lemma validateSchemaAux_none_iff :
    ∀ (l : List FlagSchema) (longs shorts : List String),
      validateSchemaAux longs shorts l = none ↔
        ((∀ s ∈ l, validEntry s = true) ∧
         (l.map FlagSchema.long).Nodup ∧
         (∀ x ∈ l.map FlagSchema.long, x ∉ longs) ∧
         (l.filterMap FlagSchema.short).Nodup ∧
         (∀ x ∈ l.filterMap FlagSchema.short, x ∉ shorts)) := by
  intro l
  induction l with
  | nil => intro longs shorts; simp [validateSchemaAux]
  | cons s rest ih =>
    intro longs shorts
    rw [validateSchemaAux_cons_none_iff, checkEntry_none_iff, ih]
    rcases s with ⟨long, short, required, defaultValue, valueType⟩
    rcases short with _ | sh
    · have hm : ((⟨long, none, required, defaultValue, valueType⟩ : FlagSchema) :: rest).map
          FlagSchema.long = long :: rest.map FlagSchema.long := rfl
      have hf : ((⟨long, none, required, defaultValue, valueType⟩ : FlagSchema) :: rest).filterMap
          FlagSchema.short = rest.filterMap FlagSchema.short := rfl
      rw [hm, hf]
      simp only [List.nodup_cons, List.append_nil, List.mem_cons, forall_eq_or_imp,
        not_mem_append_singleton]
      constructor
      · rintro ⟨⟨hv, hlm, -⟩, hrest, hnd, hmem, hnds, hmems⟩
        exact ⟨⟨hv, hrest⟩, ⟨fun hc => (hmem long hc).2 rfl, hnd⟩,
          ⟨hlm, fun x hx => (hmem x hx).1⟩, hnds, hmems⟩
      · rintro ⟨⟨hv, hrest⟩, ⟨hlm2, hnd⟩, ⟨hlm, hmem⟩, hnds, hmems⟩
        exact ⟨⟨hv, hlm, fun sh h => nomatch h⟩, hrest, hnd,
          fun x hx => ⟨hmem x hx, fun he => hlm2 (he ▸ hx)⟩, hnds, hmems⟩
    · have hm : ((⟨long, some sh, required, defaultValue, valueType⟩ : FlagSchema) :: rest).map
          FlagSchema.long = long :: rest.map FlagSchema.long := rfl
      have hf : ((⟨long, some sh, required, defaultValue, valueType⟩ : FlagSchema) :: rest).filterMap
          FlagSchema.short = sh :: rest.filterMap FlagSchema.short := rfl
      rw [hm, hf]
      simp only [List.nodup_cons, List.mem_cons, forall_eq_or_imp, not_mem_append_singleton]
      constructor
      · rintro ⟨⟨hv, hlm, hsm⟩, hrest, hnd, hmem, hnds, hmems⟩
        exact ⟨⟨hv, hrest⟩, ⟨fun hc => (hmem long hc).2 rfl, hnd⟩,
          ⟨hlm, fun x hx => (hmem x hx).1⟩,
          ⟨fun hc => (hmems sh hc).2 rfl, hnds⟩,
          ⟨hsm sh rfl, fun x hx => (hmems x hx).1⟩⟩
      · rintro ⟨⟨hv, hrest⟩, ⟨hlm2, hnd⟩, ⟨hlm, hmem⟩, ⟨hsm2, hnds⟩, ⟨hsm, hmems⟩⟩
        refine ⟨⟨hv, hlm, fun sh2 h => ?_⟩, hrest, hnd,
          fun x hx => ⟨hmem x hx, fun he => hlm2 (he ▸ hx)⟩, hnds,
          fun x hx => ⟨hmems x hx, fun he => hsm2 (he ▸ hx)⟩⟩
        cases h
        exact hsm

lemma validateSchema_ok_eq {l t : List FlagSchema} (h : validateSchema l = .ok t) :
    t = l := by
  unfold validateSchema at h
  cases haux : validateSchemaAux [] [] l with
  | some e => rw [haux] at h; cases h
  | none => rw [haux] at h; cases h; rfl

lemma validateSchema_ok_iff (l : List FlagSchema) :
    validateSchema l = .ok l ↔ validSchema l := by
  unfold validateSchema
  cases h : validateSchemaAux [] [] l with
  | some e =>
    simp only [reduceCtorEq, false_iff]
    intro hv
    have hnone := (validateSchemaAux_none_iff l [] []).mpr
      ⟨hv.1, hv.2.1, by simp, hv.2.2, by simp⟩
    rw [h] at hnone
    cases hnone
  | none =>
    simp only [true_iff]
    have hc := (validateSchemaAux_none_iff l [] []).mp h
    exact ⟨hc.1, hc.2.1, hc.2.2.2.1⟩

lemma validateSchemaAux_some_decompose :
    ∀ (l : List FlagSchema) (longs shorts : List String) (e : TinError),
      validateSchemaAux longs shorts l = some e →
      ∃ pre s post, l = pre ++ s :: post ∧
        validateSchemaAux longs shorts pre = none ∧
        checkEntry (longs ++ pre.map FlagSchema.long)
          (shorts ++ pre.filterMap FlagSchema.short) s = some e := by
  intro l
  induction l with
  | nil =>
    intro longs shorts e h
    cases h
  | cons s rest ih =>
    intro longs shorts e h
    cases hce : checkEntry longs shorts s with
    | some e0 =>
      have he : e0 = e := by
        unfold validateSchemaAux at h
        rw [hce] at h
        injection h
      subst he
      exact ⟨[], s, rest, rfl, rfl, by simpa using hce⟩
    | none =>
      unfold validateSchemaAux at h
      rw [hce] at h
      obtain ⟨pre, s2, post, hsplit, hpre, hck⟩ := ih _ _ _ h
      refine ⟨s :: pre, s2, post, by rw [hsplit]; rfl, ?_, ?_⟩
      · unfold validateSchemaAux
        rw [hce]
        exact hpre
      · have e1 : longs ++ (s :: pre).map FlagSchema.long =
            (longs ++ [s.long]) ++ pre.map FlagSchema.long := by simp
        have e2 : shorts ++ (s :: pre).filterMap FlagSchema.short =
            (shorts ++ (match s.short with | some sh => [sh] | none => [])) ++
              pre.filterMap FlagSchema.short := by
          rcases hsh : s.short with _ | sh <;> simp [List.filterMap_cons, hsh]
        rw [e1, e2]
        exact hck

lemma validateSchema_error_iff {l : List FlagSchema} {e : TinError} :
    validateSchema l = .error e ↔ validateSchemaAux [] [] l = some e := by
  unfold validateSchema
  cases hx : validateSchemaAux [] [] l <;> simp [hx]

lemma validSchema_perm {l l' : List FlagSchema} (h : l.Perm l') :
    validSchema l ↔ validSchema l' := by
  unfold validSchema
  apply and_congr
  · exact ⟨fun hv s hs => hv s (h.mem_iff.mpr hs), fun hv s hs => hv s (h.mem_iff.mp hs)⟩
  apply and_congr
  · exact (h.map FlagSchema.long).nodup_iff
  · exact (h.filterMap FlagSchema.short).nodup_iff

end Tiniargs

namespace Tiniargs

/-! ## Pipeline lemmas -/

lemma parseFlagNoSchema_dropped {t : String} (h : jsMatchFlag t = none) :
    parseFlagNoSchema t = [none] := by
  simp [parseFlagNoSchema, h]

lemma parseFlagWithSchema_dropped (sch : List FlagSchema) {t : String}
    (h : jsMatchFlag t = none) :
    parseFlagWithSchema sch t = .ok [none] := by
  simp [parseFlagWithSchema, h]

lemma emittedPairs_cons_dropped (t : String) (args : List String)
    (schema : Option (List FlagSchema)) (h : jsMatchFlag t = none) :
    emittedPairs (t :: args) schema = emittedPairs args schema := by
  cases schema with
  | none =>
    simp [emittedPairs, parseFlagNoSchema_dropped h]
  | some sch =>
    cases hv : validateSchema sch with
    | error e => simp [emittedPairs, hv]
    | ok v =>
      have h1 : parseFlagWithSchema v t = .ok [none] := parseFlagWithSchema_dropped v h
      simp only [emittedPairs, hv, mapParse, h1]
      cases hm : mapParse (parseFlagWithSchema v) args with
      | error e => simp [hm]
      | ok ll => simp [hm]

lemma positionalsOf_cons_flag (t : String) (args : List String)
    (h : strStartsWith t "-" = true) :
    positionalsOf (t :: args) = positionalsOf args := by
  simp [positionalsOf, List.filter_cons, h]

lemma positionalsOf_cons_pos (t : String) (args : List String)
    (h : strStartsWith t "-" = false) :
    positionalsOf (t :: args) = t :: positionalsOf args := by
  simp [positionalsOf, List.filter_cons, h]

/-! ## Lemmas about defaults and the required check -/

lemma fillDefaults_preserves :
    ∀ (entries : List FlagSchema) (fl : List (String × FlagValue)) (k : String)
      (w : FlagValue), lookupFlag fl k = some w →
      lookupFlag (fillDefaults entries fl) k = some w := by
  intro entries
  induction entries with
  | nil => intro fl k w h; exact h
  | cons s rest ih =>
    intro fl k w h
    rw [show fillDefaults (s :: rest) fl = fillDefaults rest
      (if lookupFlag fl s.long = none then
        match s.defaultValue with
        | some d => fl ++ [(s.long, d)]
        | none => fl
      else fl) from rfl]
    by_cases hcond : lookupFlag fl s.long = none
    · rw [if_pos hcond]
      cases hd : s.defaultValue with
      | none => exact ih fl k w h
      | some d =>
        apply ih
        rw [lookupFlag_append, h]
    · rw [if_neg hcond]
      exact ih fl k w h

lemma fillDefaults_new :
    ∀ (entries : List FlagSchema) (fl : List (String × FlagValue)) (k : String)
      (vv : FlagValue),
      lookupFlag fl k = none →
      lookupFlag (fillDefaults entries fl) k = some vv →
      ∃ s, s ∈ entries ∧ s.long = k ∧ s.defaultValue = some vv := by
  intro entries
  induction entries with
  | nil =>
    intro fl k vv h1 h2
    rw [show fillDefaults [] fl = fl from rfl, h1] at h2
    cases h2
  | cons s rest ih =>
    intro fl k vv h1 h2
    rw [show fillDefaults (s :: rest) fl = fillDefaults rest
      (if lookupFlag fl s.long = none then
        match s.defaultValue with
        | some d => fl ++ [(s.long, d)]
        | none => fl
      else fl) from rfl] at h2
    by_cases hcond : lookupFlag fl s.long = none
    · rw [if_pos hcond] at h2
      cases hd : s.defaultValue with
      | none =>
        rw [hd] at h2
        obtain ⟨s2, hs2, h3, h4⟩ := ih fl k vv h1 h2
        exact ⟨s2, List.mem_cons_of_mem _ hs2, h3, h4⟩
      | some d =>
        rw [hd] at h2
        by_cases hk : s.long = k
        · have hlk : lookupFlag (fl ++ [(s.long, d)]) k = some d := by
            rw [lookupFlag_append, h1]
            simp [lookupFlag, hk]
          have hpres := fillDefaults_preserves rest _ k d hlk
          rw [h2] at hpres
          injection hpres with hdv
          exact ⟨s, List.mem_cons_self _ _, hk, by rw [hd, hdv]⟩
        · have hlk : lookupFlag (fl ++ [(s.long, d)]) k = none := by
            rw [lookupFlag_append, h1]
            simp [lookupFlag, hk]
          obtain ⟨s2, hs2, h3, h4⟩ := ih _ k vv hlk h2
          exact ⟨s2, List.mem_cons_of_mem _ hs2, h3, h4⟩
    · rw [if_neg hcond] at h2
      obtain ⟨s2, hs2, h3, h4⟩ := ih fl k vv h1 h2
      exact ⟨s2, List.mem_cons_of_mem _ hs2, h3, h4⟩

lemma requiredCheck_first (pre : List FlagSchema) (e : FlagSchema)
    (post : List FlagSchema) (flags : List (String × FlagValue))
    (hreq : e.required = some true) (habs : lookupFlag flags e.long = none)
    (hpre : ∀ p ∈ pre, p.required = some true → lookupFlag flags p.long ≠ none) :
    requiredCheck (pre ++ e :: post) flags = .error (.missingRequired e.long) := by
  unfold requiredCheck
  rw [List.filter_append, List.find?_append]
  have h1 : (pre.filter (fun s => s.required == some true)).find?
      (fun s => lookupFlag flags s.long == none) = none := by
    rw [List.find?_eq_none]
    intro x hx
    have hx' := List.mem_filter.mp hx
    have hxr : x.required = some true := by simpa using hx'.2
    have hne := hpre x hx'.1 hxr
    simp [hne]
  have h2 : (e :: post).filter (fun s => s.required == some true) =
      e :: post.filter (fun s => s.required == some true) := by
    simp [List.filter_cons, hreq]
  rw [h1, h2, List.find?_cons_of_pos _ (by simp [habs])]
  simp

lemma requiredCheck_ok_iff (sch : List FlagSchema) (flags : List (String × FlagValue)) :
    requiredCheck sch flags = .ok () ↔
      ∀ s ∈ sch, s.required = some true → lookupFlag flags s.long ≠ none := by
  unfold requiredCheck
  cases hf : (sch.filter (fun s => s.required == some true)).find?
      (fun s => lookupFlag flags s.long == none) with
  | some s =>
    simp only [reduceCtorEq, false_iff]
    intro hall
    have hmem := List.mem_of_find?_eq_some hf
    have hx' := List.mem_filter.mp hmem
    have hxr : s.required = some true := by simpa using hx'.2
    have hp := List.find?_some hf
    have : lookupFlag flags s.long = none := by simpa using hp
    exact hall s hx'.1 hxr this
  | none =>
    simp only [true_iff]
    intro s hs hr habs
    have := List.find?_eq_none.mp hf s (List.mem_filter.mpr ⟨hs, by simp [hr]⟩)
    simp [habs] at this

end Tiniargs

namespace Tiniargs

/-! ## Claim theorems -/

/-- C1 (counterexample): the claim says a token starting with `-` that does
not match the anchored grammar is dropped entirely; but the source regex is
unanchored, so `-abc!` contributes the flag pair `("abc", true)` and
`---foo` contributes `("foo", true)` instead of being dropped. -/
theorem tiniargs_unanchored_regex_counterexample :
    tiniargs ["-abc!"] none = .ok ⟨[], [("abc", FlagValue.boolean true)]⟩ ∧
    tiniargs ["---foo"] none = .ok ⟨[], [("foo", FlagValue.boolean true)]⟩ ∧
    ParsedArgs.mk [] [("abc", FlagValue.boolean true)] ≠ ParsedArgs.mk [] [] :=
  ⟨rfl, rfl, by decide⟩

/-- C1 (amended): a token starting with `-` is dropped — contributing no
positional, no flag pair and no error, in both modes — exactly when the
unanchored `FLAG_REGEX` finds no match anywhere in it; in that case
`tiniargs` behaves as if the token were not present. -/
theorem tiniargs_drops_only_unmatched_dash_tokens (t : String) (args : List String)
    (schema : Option (List FlagSchema))
    (h1 : strStartsWith t "-" = true) (h2 : jsMatchFlag t = none) :
    tiniargs (t :: args) schema = tiniargs args schema := by
  unfold tiniargs
  rw [emittedPairs_cons_dropped t args schema h2, positionalsOf_cons_flag t args h1]

theorem tiniargs_drops_only_unmatched_dash_tokens_witness :
    strStartsWith "-!" "-" = true ∧ jsMatchFlag "-!" = none ∧
    tiniargs ["-!", "server"] none = tiniargs ["server"] none :=
  ⟨rfl, rfl, tiniargs_drops_only_unmatched_dash_tokens "-!" ["server"] none rfl rfl⟩

/-- C2 (counterexample): the claim says `--flag=` (empty captured value)
emits `(key, true)`; the source computes `val ?? true` and the empty string
is not nullish, so the emitted pair is `("flag", "")`. -/
theorem tiniargs_empty_value_counterexample :
    tiniargs ["--flag="] none = .ok ⟨[], [("flag", FlagValue.str "")]⟩ ∧
    FlagValue.str "" ≠ FlagValue.boolean true :=
  ⟨rfl, by decide⟩

/-- C2 (amended): in no-schema mode a flag token with an empty captured
value emits `(key, "")` (the empty string, not `true`); a token whose
captured value is a non-empty digit string emits `(key, parsedInteger)`;
a value-less token emits `(key, true)`. -/
theorem parseFlagNoSchema_value_coercion (arg key : String) (val : Option String)
    (h : jsMatchFlag arg = some (key, val)) :
    (val = some "" → parseFlagNoSchema arg = [some (key, FlagValue.str "")]) ∧
    (∀ v : String, val = some v → v.data ≠ [] → (∀ c ∈ v.data, c.isDigit = true) →
      parseFlagNoSchema arg = [some (key, FlagValue.num ((digitsToNat v.data : Int)))]) ∧
    (val = none → parseFlagNoSchema arg = [some (key, FlagValue.boolean true)]) := by
  refine ⟨?_, ?_, ?_⟩
  · rintro rfl
    simp [parseFlagNoSchema, h, numberRegexTest]
  · rintro v rfl hne hdig
    have h1 : v.data.isEmpty = false := by
      cases hd : v.data with
      | nil => exact absurd hd hne
      | cons a l => rfl
    have htest : numberRegexTest v = true := by
      unfold numberRegexTest
      rw [h1]
      simp [List.all_eq_true]
      exact hdig
    simp [parseFlagNoSchema, h, htest, jsParseInt_all_digits v hne hdig]
  · rintro rfl
    simp [parseFlagNoSchema, h]

theorem parseFlagNoSchema_value_coercion_witness :
    jsMatchFlag "--flag=" = some ("flag", some "") ∧
    parseFlagNoSchema "--flag=" = [some ("flag", FlagValue.str "")] ∧
    parseFlagNoSchema "--n=42" = [some ("n", FlagValue.num 42)] ∧
    parseFlagNoSchema "--b" = [some ("b", FlagValue.boolean true)] := by
  refine ⟨rfl, ?_, ?_, ?_⟩
  · exact (parseFlagNoSchema_value_coercion "--flag=" "flag" (some "") rfl).1 rfl
  · exact (parseFlagNoSchema_value_coercion "--n=42" "n" (some "42") rfl).2.1 "42" rfl
      (by decide) (by decide)
  · exact (parseFlagNoSchema_value_coercion "--b" "b" none rfl).2.2 rfl

/-- C3 (counterexample): the claim says that once a key is seen twice the
parse fails with `DuplicateFlagError` and no later token's error can be
raised instead; but the source maps the parse function over all tokens
before merging, so `["--aa", "--aa", "--zz"]` with a schema knowing only
`aa` throws `UnknownFlagError` for `zz`, not the duplicate error. -/
theorem tiniargs_later_error_preempts_duplicate :
    tiniargs ["--aa", "--aa", "--zz"]
      (some [⟨"aa", none, none, none, "boolean"⟩]) =
      .error (.unknownFlag "zz" false) ∧
    TinError.unknownFlag "zz" false ≠
      TinError.duplicateFlag "aa" (FlagValue.boolean true) (FlagValue.boolean true) :=
  ⟨rfl, by decide⟩

/-- C3 (amended): when the token-parsing phase succeeds with pair list `P`,
the merge fold fails at the first repeated key with a `DuplicateFlagError`
carrying the key, the stored first value and the incoming second value;
pairs after the first duplicate are never merged.  (Parse-time errors of
any token, even later ones, take precedence because all tokens are parsed
before merging.) -/
theorem tiniargs_first_duplicate (args : List String)
    (schema : Option (List FlagSchema)) (P pre rest : List (String × FlagValue))
    (k : String) (v v0 : FlagValue)
    (hP : emittedPairs args schema = .ok P)
    (hsplit : P = pre ++ (k, v) :: rest)
    (hnd : (pre.map Prod.fst).Nodup)
    (hv0 : lookupFlag pre k = some v0) :
    tiniargs args schema = .error (.duplicateFlag k v0 v) := by
  have hm : mergeFlags [] P = .error (.duplicateFlag k v0 v) := by
    rw [hsplit]
    exact mergeFlags_dup pre [] k v v0 rest hnd (fun kk _ => rfl) (by simpa using hv0)
  simp [tiniargs, hP, hm]

theorem tiniargs_first_duplicate_witness :
    emittedPairs ["--t", "--t=false"] none =
      .ok [("t", FlagValue.boolean true), ("t", FlagValue.str "false")] ∧
    tiniargs ["--t", "--t=false"] none =
      .error (.duplicateFlag "t" (FlagValue.boolean true) (FlagValue.str "false")) := by
  refine ⟨rfl, ?_⟩
  exact tiniargs_first_duplicate ["--t", "--t=false"] none
    [("t", FlagValue.boolean true), ("t", FlagValue.str "false")]
    [("t", FlagValue.boolean true)] [] "t" (FlagValue.str "false")
    (FlagValue.boolean true) rfl rfl (by simp) rfl

end Tiniargs

namespace Tiniargs

/-- C4: `validateSchema` runs before any argument parsing, returns a valid
schema unchanged, and on failure the error is the first failing check (in
the fixed source order encoded by `checkEntry`) of the first violating
entry, with the seen-name sets accumulated from the preceding entries;
whenever it fails, `tiniargs` propagates exactly that error for every
argument list, so no parsing precedes a schema failure. -/
theorem validateSchema_checks_in_order (schemas : List FlagSchema) :
    (validateSchemaAux [] [] schemas = none → validateSchema schemas = .ok schemas) ∧
    (∀ t, validateSchema schemas = .ok t → t = schemas) ∧
    (∀ e, validateSchema schemas = .error e →
      (∃ pre s post, schemas = pre ++ s :: post ∧
        validateSchemaAux [] [] pre = none ∧
        checkEntry (pre.map FlagSchema.long) (pre.filterMap FlagSchema.short) s = some e) ∧
      (∀ args, tiniargs args (some schemas) = .error e)) := by
  refine ⟨?_, ?_, ?_⟩
  · intro h
    unfold validateSchema
    rw [h]
  · intro t h
    exact validateSchema_ok_eq h
  · intro e h
    constructor
    · obtain ⟨pre, s2, post, hsplit, hpre, hck⟩ :=
        validateSchemaAux_some_decompose schemas [] [] e (validateSchema_error_iff.mp h)
      exact ⟨pre, s2, post, hsplit, hpre, by simpa using hck⟩
    · intro args
      simp [tiniargs, emittedPairs, h]

theorem validateSchema_checks_in_order_witness :
    validateSchema [⟨"aa", none, none, none, "boolean"⟩] =
      .ok [⟨"aa", none, none, none, "boolean"⟩] ∧
    tiniargs ["--zz"] (some [⟨"l", some "l", none, none, "boolean"⟩]) =
      .error (.schemaValidation (longLenMsg "l")) := by
  constructor
  · exact (validateSchema_checks_in_order _).1 rfl
  · exact ((validateSchema_checks_in_order [⟨"l", some "l", none, none, "boolean"⟩]).2.2
      (.schemaValidation (longLenMsg "l")) rfl).2 ["--zz"]

/-- C8: success of `validateSchema` is invariant under permutation of the
schema list; on failure the reported error is determined by the first
entry (in input order) violating any rule; and validation is idempotent:
an accepted schema is returned equal to the input and re-validates to
itself. -/
theorem validateSchema_perm_invariant (s s2 : List FlagSchema) (hp : s.Perm s2) :
    ((validateSchema s = .ok s) ↔ (validateSchema s2 = .ok s2)) ∧
    (∀ e, validateSchema s = .error e →
      ∃ pre en post, s = pre ++ en :: post ∧
        validateSchemaAux [] [] pre = none ∧
        checkEntry (pre.map FlagSchema.long) (pre.filterMap FlagSchema.short) en = some e) ∧
    (∀ t, validateSchema s = .ok t → t = s ∧ validateSchema t = .ok t) := by
  refine ⟨?_, ?_, ?_⟩
  · rw [validateSchema_ok_iff, validateSchema_ok_iff]
    exact validSchema_perm hp
  · intro e h
    obtain ⟨pre, en, post, hsplit, hpre, hck⟩ :=
      validateSchemaAux_some_decompose s [] [] e (validateSchema_error_iff.mp h)
    exact ⟨pre, en, post, hsplit, hpre, by simpa using hck⟩
  · intro t h
    have ht := validateSchema_ok_eq h
    refine ⟨ht, ?_⟩
    rw [ht] at h ⊢
    exact h

theorem validateSchema_perm_invariant_witness :
    validateSchema [⟨"bb", some "b", none, none, "boolean"⟩,
      ⟨"aa", some "a", none, none, "boolean"⟩] =
      .ok [⟨"bb", some "b", none, none, "boolean"⟩,
        ⟨"aa", some "a", none, none, "boolean"⟩] :=
  ((validateSchema_perm_invariant
    [⟨"aa", some "a", none, none, "boolean"⟩, ⟨"bb", some "b", none, none, "boolean"⟩]
    [⟨"bb", some "b", none, none, "boolean"⟩, ⟨"aa", some "a", none, none, "boolean"⟩]
    (List.Perm.swap _ _ _)).1).mp rfl

/-- C5 (counterexample): the claim says a required entry with a default,
absent from the merged flags, makes `tiniargs` fail naming *that* long
flag; but the source reports the first missing required entry in schema
order, so with `aa` (required) before `bb` (required, with default) the
error names `aa`, not `bb`. -/
theorem tiniargs_required_default_names_first_missing :
    tiniargs [] (some [⟨"aa", none, some true, none, "boolean"⟩,
      ⟨"bb", none, some true, some (FlagValue.boolean true), "boolean"⟩]) =
      .error (.missingRequired "aa") ∧
    TinError.missingRequired "aa" ≠ TinError.missingRequired "bb" :=
  ⟨rfl, by decide⟩

/-- C5 (amended): the required check precedes default filling: after a
successful merge, if `e` is the first required entry (in schema order)
whose long name is absent, `tiniargs` fails with
`MissingRequiredFlagError e.long` — even when `e` declares a default; on
success every required entry is present after the merge, and every flag
present in the result but absent from the merged flags stems from the
declared default of a non-required entry. -/
theorem tiniargs_required_precedes_defaults (args : List String)
    (sch : List FlagSchema) (flags : List (String × FlagValue)) :
    (∀ pre e post, mergedFlags args (some sch) = .ok flags →
      sch = pre ++ e :: post → e.required = some true →
      lookupFlag flags e.long = none →
      (∀ p ∈ pre, p.required = some true → lookupFlag flags p.long ≠ none) →
      tiniargs args (some sch) = .error (.missingRequired e.long)) ∧
    (∀ r, mergedFlags args (some sch) = .ok flags →
      tiniargs args (some sch) = .ok r →
      (∀ s2 ∈ sch, s2.required = some true → lookupFlag flags s2.long ≠ none) ∧
      (∀ k vv, lookupFlag flags k = none → lookupFlag r.flags k = some vv →
        ∃ s2, s2 ∈ sch ∧ s2.long = k ∧ s2.required ≠ some true ∧
          s2.defaultValue = some vv)) := by
  have split : mergedFlags args (some sch) = .ok flags →
      ∃ pairs, emittedPairs args (some sch) = .ok pairs ∧
        mergeFlags [] pairs = .ok flags := by
    intro hm
    unfold mergedFlags at hm
    cases he : emittedPairs args (some sch) with
    | error e2 => rw [he] at hm; cases hm
    | ok pairs => rw [he] at hm; exact ⟨pairs, rfl, hm⟩
  constructor
  · intro pre e post hm hsch hereq habs hpre
    obtain ⟨pairs, he, hmg⟩ := split hm
    have hrc : requiredCheck (pre ++ e :: post) flags =
        .error (.missingRequired e.long) :=
      requiredCheck_first pre e post flags hereq habs hpre
    subst hsch
    simp [tiniargs, he, hmg, hrc]
  · intro r hm hr
    obtain ⟨pairs, he, hmg⟩ := split hm
    cases hqc : requiredCheck sch flags with
    | error e2 => simp [tiniargs, he, hmg, hqc] at hr
    | ok u =>
      cases u
      simp only [tiniargs, he, hmg, hqc] at hr
      constructor
      · exact fun s2 hs2 hreq => (requiredCheck_ok_iff sch flags).mp hqc s2 hs2 hreq
      · intro k vv hnone hsome
        have hx : ParsedArgs.mk (positionalsOf args) (applyDefaults sch flags) = r := by
          injection hr
        have hrf : r.flags = applyDefaults sch flags := by
          rw [← hx]
        rw [hrf] at hsome
        unfold applyDefaults at hsome
        obtain ⟨s2, hs2, hlong, hdef⟩ := fillDefaults_new _ flags k vv hnone hsome
        have hs2' := List.mem_filter.mp hs2
        have hpred := hs2'.2
        simp only [Bool.and_eq_true, bne_iff_ne, ne_eq] at hpred
        exact ⟨s2, hs2'.1, hlong, hpred.1, hdef⟩

theorem tiniargs_required_precedes_defaults_witness :
    tiniargs [] (some [⟨"bb", none, some true, some (FlagValue.boolean true), "boolean"⟩]) =
      .error (.missingRequired "bb") :=
  (tiniargs_required_precedes_defaults []
    [⟨"bb", none, some true, some (FlagValue.boolean true), "boolean"⟩] []).1
    [] ⟨"bb", none, some true, some (FlagValue.boolean true), "boolean"⟩ []
    rfl rfl rfl rfl (by simp)

end Tiniargs

namespace Tiniargs

lemma parseFlagWithSchema_short_mode (sch : List FlagSchema) (k : String)
    (h1 : k.data ≠ []) (h2 : ∀ c ∈ k.data, wordChar c = true) :
    parseFlagWithSchema sch ("-" ++ k) = parseShortChars sch none k.data := by
  have hmatch := jsMatch_short k h1 h2
  obtain ⟨c, cs, hk⟩ := List.exists_cons_of_ne_nil h1
  have hdata : ("-" ++ k).data = '-' :: c :: cs := by
    rw [strData_append, data_d, hk]
    rfl
  have hdd : strStartsWith ("-" ++ k) "--" = false :=
    startsWith_dd_false _ c cs hdata
      (word_ne_dash (h2 c (by rw [hk]; exact List.mem_cons_self _ _)))
  simp [parseFlagWithSchema, hmatch, hdd]

/-- C6: in schema mode a single-dash token `-c1…cn` stacks: when every
character is a declared boolean short flag it emits `(longOf ci, true)`
for each character in left-to-right order; when the leftmost offending
character is undeclared it fails with `UnknownFlagError(ci, short)`; when
that character's entry is non-boolean it fails with a `FlagParseError`. -/
theorem parseFlagWithSchema_short_stacking (sch : List FlagSchema) (k : String)
    (h1 : k.data ≠ []) (h2 : ∀ c ∈ k.data, wordChar c = true) :
    ((∀ c ∈ k.data, isBoolShort sch c = true) →
      parseFlagWithSchema sch ("-" ++ k) =
        .ok (k.data.map (fun c => some (shortLong sch c, FlagValue.boolean true)))) ∧
    (∀ pre c post, k.data = pre ++ c :: post →
      (∀ c2 ∈ pre, isBoolShort sch c2 = true) →
      shortLookup sch c = none →
      parseFlagWithSchema sch ("-" ++ k) = .error (.unknownFlag c.toString true)) ∧
    (∀ pre c post e, k.data = pre ++ c :: post →
      (∀ c2 ∈ pre, isBoolShort sch c2 = true) →
      shortLookup sch c = some e → e.valueType ≠ "boolean" →
      parseFlagWithSchema sch ("-" ++ k) =
        .error (.flagParse (shortFormMsg e) c.toString none)) := by
  have hfront := parseFlagWithSchema_short_mode sch k h1 h2
  refine ⟨?_, ?_, ?_⟩
  · intro hall
    rw [hfront]
    exact parseShortChars_all sch none k.data hall
  · intro pre c post hsplit hpre hc
    rw [hfront, hsplit]
    exact parseShortChars_unknown sch none pre c post hpre hc
  · intro pre c post e hsplit hpre hc hne
    rw [hfront, hsplit]
    exact parseShortChars_nonbool sch none pre c post e hpre hc hne

theorem parseFlagWithSchema_short_stacking_witness :
    parseFlagWithSchema [⟨"fake", some "f", none, none, "boolean"⟩,
      ⟨"aaa", some "a", none, none, "boolean"⟩] ("-" ++ "fa") =
      .ok [some ("fake", FlagValue.boolean true), some ("aaa", FlagValue.boolean true)] ∧
    parseFlagWithSchema [⟨"fake", some "f", none, none, "boolean"⟩] ("-" ++ "fz") =
      .error (.unknownFlag "z" true) ∧
    parseFlagWithSchema [⟨"fake", some "f", none, none, "boolean"⟩,
      ⟨"num", some "n", none, none, "number"⟩] ("-" ++ "fn") =
      .error (.flagParse (shortFormMsg ⟨"num", some "n", none, none, "number"⟩)
        "n" none) := by
  refine ⟨?_, ?_, ?_⟩
  · exact (parseFlagWithSchema_short_stacking
      [⟨"fake", some "f", none, none, "boolean"⟩, ⟨"aaa", some "a", none, none, "boolean"⟩]
      "fa" (by decide) (by decide)).1 (by decide)
  · exact (parseFlagWithSchema_short_stacking
      [⟨"fake", some "f", none, none, "boolean"⟩]
      "fz" (by decide) (by decide)).2.1 ['f'] 'z' [] rfl (by decide) rfl
  · exact (parseFlagWithSchema_short_stacking
      [⟨"fake", some "f", none, none, "boolean"⟩, ⟨"num", some "n", none, none, "number"⟩]
      "fn" (by decide) (by decide)).2.2 ['f'] 'n' []
      ⟨"num", some "n", none, none, "number"⟩ rfl (by decide) rfl (by decide)

/-- C7: for a schema entry of value type `string` found under long name
`k`, parsing `--k=v` with non-empty `v` yields the exact string `v` (no
numeric coercion, also for all-digit values), and an empty or absent
captured value fails with a `FlagParseError`. -/
theorem parseFlagWithSchema_string_values (sch : List FlagSchema) (k v : String)
    (e : FlagSchema)
    (hk1 : k.data ≠ []) (hk2 : ∀ c ∈ k.data, wordChar c = true)
    (hv : ∀ c ∈ v.data, isLineTerm c = false)
    (hfind : longLookup sch k = some e) (hty : e.valueType = "string") :
    e.long = k ∧
    (v ≠ "" →
      parseFlagWithSchema sch ("--" ++ k ++ "=" ++ v) =
        .ok [some (e.long, FlagValue.str v)] ∧
      (validateSchema sch = .ok sch →
        mergedFlags ["--" ++ k ++ "=" ++ v] (some sch) =
          .ok [(e.long, FlagValue.str v)])) ∧
    parseFlagWithSchema sch ("--" ++ k ++ "=") =
      .error (.flagParse (strErrMsg k) k (some "")) ∧
    parseFlagWithSchema sch ("--" ++ k) =
      .error (.flagParse (strErrMsg k) k none) := by
  have hm1 := jsMatch_long_val k v hk1 hk2 hv
  have hm2 := jsMatch_long_emptyval k hk1 hk2
  have hm3 := jsMatch_long_noval k hk1 hk2
  have hdd1 : strStartsWith ("--" ++ k ++ "=" ++ v) "--" = true :=
    startsWith_dd_true _ (k.data ++ '=' :: v.data)
      (by simp [strData_append, data_dd, data_eq])
  have hdd2 : strStartsWith ("--" ++ k ++ "=") "--" = true :=
    startsWith_dd_true _ (k.data ++ '=' :: [])
      (by simp [strData_append, data_dd, data_eq])
  have hdd3 : strStartsWith ("--" ++ k) "--" = true :=
    startsWith_dd_true _ k.data (by simp [strData_append, data_dd])
  refine ⟨by simpa using List.find?_some hfind, fun hne => ⟨?_, fun hval => ?_⟩, ?_, ?_⟩
  · simp [parseFlagWithSchema, hm1, hdd1, hfind, hty, hne]
  · have hp : parseFlagWithSchema sch ("--" ++ k ++ "=" ++ v) =
        .ok [some (e.long, FlagValue.str v)] := by
      simp [parseFlagWithSchema, hm1, hdd1, hfind, hty, hne]
    simp [mergedFlags, emittedPairs, hval, mapParse, hp, mergeFlags, lookupFlag]
  · simp [parseFlagWithSchema, hm2, hdd2, hfind, hty]
  · simp [parseFlagWithSchema, hm3, hdd3, hfind, hty]

theorem parseFlagWithSchema_string_values_witness :
    parseFlagWithSchema [⟨"testflag", some "l", none, none, "string"⟩]
      ("--" ++ "testflag" ++ "=" ++ "194") =
      .ok [some ("testflag", FlagValue.str "194")] ∧
    parseFlagWithSchema [⟨"testflag", some "l", none, none, "string"⟩]
      ("--" ++ "testflag") =
      .error (.flagParse (strErrMsg "testflag") "testflag" none) := by
  constructor
  · exact ((parseFlagWithSchema_string_values
      [⟨"testflag", some "l", none, none, "string"⟩] "testflag" "194"
      ⟨"testflag", some "l", none, none, "string"⟩
      (by decide) (by decide) (by decide) rfl rfl).2.1 (by decide)).1
  · exact (parseFlagWithSchema_string_values
      [⟨"testflag", some "l", none, none, "string"⟩] "testflag" "194"
      ⟨"testflag", some "l", none, none, "string"⟩
      (by decide) (by decide) (by decide) rfl rfl).2.2.2

/-- C9: a token that does not begin with `-` but in which the unanchored
regex still finds a match is both kept as a positional and fed through the
flag parser; concretely `foo-bar` contributes the positional `"foo-bar"`
and the no-schema flag pair `("bar", true)`, and in schema mode it can
raise a short-flag `UnknownFlagError` or emit schema-coerced pairs. -/
theorem tiniargs_nonleading_dash_token (t k : String) (v : Option String)
    (h1 : strStartsWith t "-" = false) (h2 : jsMatchFlag t = some (k, v)) :
    positionalsOf [t] = [t] ∧
    (∃ fv, parseFlagNoSchema t = [some (k, fv)]) ∧
    tiniargs ["foo-bar"] none =
      .ok ⟨["foo-bar"], [("bar", FlagValue.boolean true)]⟩ ∧
    tiniargs ["foo-bar"] (some [⟨"zz", some "z", none, none, "boolean"⟩]) =
      .error (.unknownFlag "b" true) ∧
    tiniargs ["foo-bar"] (some [⟨"bb", some "b", none, none, "boolean"⟩,
      ⟨"aa", some "a", none, none, "boolean"⟩,
      ⟨"rr", some "r", none, none, "boolean"⟩]) =
      .ok ⟨["foo-bar"], [("bb", FlagValue.boolean true), ("aa", FlagValue.boolean true),
        ("rr", FlagValue.boolean true)]⟩ := by
  refine ⟨?_, ?_, rfl, rfl, rfl⟩
  · simp [positionalsOf, h1]
  · cases v with
    | none => exact ⟨FlagValue.boolean true, by simp [parseFlagNoSchema, h2]⟩
    | some vv =>
      cases ht : numberRegexTest vv with
      | false => exact ⟨FlagValue.str vv, by simp [parseFlagNoSchema, h2, ht]⟩
      | true =>
        cases hpi : jsParseInt vv with
        | some n => exact ⟨FlagValue.num n, by simp [parseFlagNoSchema, h2, ht, hpi]⟩
        | none => exact ⟨FlagValue.str vv, by simp [parseFlagNoSchema, h2, ht, hpi]⟩

theorem tiniargs_nonleading_dash_token_witness :
    strStartsWith "foo-bar" "-" = false ∧
    jsMatchFlag "foo-bar" = some ("bar", none) ∧
    positionalsOf ["foo-bar"] = ["foo-bar"] ∧
    tiniargs ["foo-bar"] none =
      .ok ⟨["foo-bar"], [("bar", FlagValue.boolean true)]⟩ := by
  refine ⟨rfl, rfl, ?_, ?_⟩
  · exact (tiniargs_nonleading_dash_token "foo-bar" "bar" none rfl rfl).1
  · exact (tiniargs_nonleading_dash_token "foo-bar" "bar" none rfl rfl).2.2.1

/-- C10: for a schema entry of value type `number` found under long name
`k`, a token `--k=v` whose value is a digit run followed by a non-digit
(e.g. `12abc`) does not fail: it emits the integer prefix; by contrast
no-schema mode only coerces full-digit values, so the same token yields
the plain string there. -/
theorem parseFlagWithSchema_number_leading_digits (sch : List FlagSchema) (k v : String)
    (e : FlagSchema) (ds : List Char) (c0 : Char) (tl : List Char)
    (hk1 : k.data ≠ []) (hk2 : ∀ c ∈ k.data, wordChar c = true)
    (hv : v.data = ds ++ c0 :: tl) (hds : ds ≠ [])
    (hall : ∀ c ∈ ds, c.isDigit = true) (hc0 : c0.isDigit = false)
    (hlt : ∀ c ∈ v.data, isLineTerm c = false)
    (hfind : longLookup sch k = some e) (hty : e.valueType = "number") :
    parseFlagWithSchema sch ("--" ++ k ++ "=" ++ v) =
      .ok [some (e.long, FlagValue.num ((digitsToNat ds : Int)))] ∧
    parseFlagNoSchema ("--" ++ k ++ "=" ++ v) = [some (k, FlagValue.str v)] := by
  have hm1 := jsMatch_long_val k v hk1 hk2 hlt
  have hdd1 : strStartsWith ("--" ++ k ++ "=" ++ v) "--" = true :=
    startsWith_dd_true _ (k.data ++ '=' :: v.data)
      (by simp [strData_append, data_dd, data_eq])
  have hpi : jsParseInt v = some ((digitsToNat ds : Int)) := by
    apply jsParseInt_leading_digits v ds (c0 :: tl) hv hds hall
    intro c cs h
    injection h with hh1 hh2
    rw [← hh1]
    exact hc0
  constructor
  · simp [parseFlagWithSchema, hm1, hdd1, hfind, hty, jsShow, hpi]
  · have hallf : ((ds ++ c0 :: tl).all Char.isDigit) = false := by
      rw [List.all_eq_false]
      exact ⟨c0, by simp, by simp [hc0]⟩
    have htest : numberRegexTest v = false := by
      unfold numberRegexTest
      rw [hv, hallf]
      simp
    simp [parseFlagNoSchema, hm1, htest]

theorem parseFlagWithSchema_number_leading_digits_witness :
    parseFlagWithSchema [⟨"kk", none, none, none, "number"⟩]
      ("--" ++ "kk" ++ "=" ++ "12abc") = .ok [some ("kk", FlagValue.num 12)] ∧
    parseFlagNoSchema ("--" ++ "kk" ++ "=" ++ "12abc") =
      [some ("kk", FlagValue.str "12abc")] := by
  constructor
  · exact (parseFlagWithSchema_number_leading_digits [⟨"kk", none, none, none, "number"⟩]
      "kk" "12abc" ⟨"kk", none, none, none, "number"⟩ ['1', '2'] 'a' ['b', 'c']
      (by decide) (by decide) rfl (by decide) (by decide) (by decide) (by decide)
      rfl rfl).1
  · exact (parseFlagWithSchema_number_leading_digits [⟨"kk", none, none, none, "number"⟩]
      "kk" "12abc" ⟨"kk", none, none, none, "number"⟩ ['1', '2'] 'a' ['b', 'c']
      (by decide) (by decide) rfl (by decide) (by decide) (by decide) (by decide)
      rfl rfl).2

end Tiniargs

/-!
## Regression checks

Concrete evaluations mirroring the repository's test suite
(`src/index.test.ts`) and the edge cases exercised by the claims.
-/
section Regression
open Tiniargs

example : tiniargs ["server", "--testflag", "--testing=test", "--something_else=128",
    "--flag_with_spaces=this is a flag value with spaces in it",
    "asdf123", "-f", "-l", "final positional"] none =
    .ok ⟨["server", "asdf123", "final positional"],
      [("testflag", .boolean true), ("testing", .str "test"),
       ("something_else", .num 128),
       ("flag_with_spaces", .str "this is a flag value with spaces in it"),
       ("f", .boolean true), ("l", .boolean true)]⟩ := rfl

example : tiniargs ["server", "--testflag", "--testflag=false"] none =
    .error (.duplicateFlag "testflag" (.boolean true) (.str "false")) := rfl

example : tiniargs ["server", "--testflag=false", "--testflag"]
    (some [⟨"testflag", some "l", none, none, "boolean"⟩]) =
    .error (.duplicateFlag "testflag" (.boolean false) (.boolean true)) := rfl

example : tiniargs ["server", "-ll"]
    (some [⟨"testflag", some "l", none, none, "boolean"⟩]) =
    .error (.duplicateFlag "testflag" (.boolean true) (.boolean true)) := rfl

example : tiniargs ["server", "--testflag=194"]
    (some [⟨"testflag", some "l", none, none, "string"⟩]) =
    .ok ⟨["server"], [("testflag", .str "194")]⟩ := rfl

example : tiniargs ["server", "--testflag"]
    (some [⟨"testflag", some "l", none, none, "string"⟩]) =
    .error (.flagParse (strErrMsg "testflag") "testflag" none) := rfl

example : tiniargs ["server", "--testflag"]
    (some [⟨"testflag", some "l", none, none, "number"⟩]) =
    .error (.flagParse (numErrMsg "testflag" none) "testflag" none) := rfl

example : numErrMsg "testflag" none =
    "Failed to parse numeric flag \"testflag\" (given value \"undefined\")" := rfl

example : tiniargs ["server", "-face"]
    (some [⟨"fake", some "f", none, none, "boolean"⟩,
           ⟨"aaa", some "a", none, none, "boolean"⟩,
           ⟨"ccc", some "c", none, none, "boolean"⟩,
           ⟨"eee", some "e", none, none, "boolean"⟩]) =
    .ok ⟨["server"], [("fake", .boolean true), ("aaa", .boolean true),
                      ("ccc", .boolean true), ("eee", .boolean true)]⟩ := rfl

example : tiniargs ["server", "--testflag"]
    (some [⟨"l", some "l", none, none, "boolean"⟩]) =
    .error (.schemaValidation (longLenMsg "l")) := rfl

example : tiniargs ["server", "--testflag"]
    (some [⟨"long", some "", none, none, "boolean"⟩]) =
    .error (.schemaValidation (shortLenMsg "long")) := rfl

example : tiniargs ["server", "--testflag"]
    (some [⟨"long", some "l", none, none, "boolean"⟩,
           ⟨"longer", some "l", none, none, "boolean"⟩]) =
    .error (.schemaValidation (dupShortMsg "l")) := rfl

example : tiniargs ["server", "--testflag"]
    (some [⟨"long", some "l", none, none, "flagval"⟩]) =
    .error (.schemaValidation (valueTypeMsg "long" "flagval")) := rfl

-- edge cases exercised by the claims
example : tiniargs ["-abc!"] none = .ok ⟨[], [("abc", .boolean true)]⟩ := rfl
example : tiniargs ["---foo"] none = .ok ⟨[], [("foo", .boolean true)]⟩ := rfl
example : tiniargs ["--flag="] none = .ok ⟨[], [("flag", .str "")]⟩ := rfl
example : tiniargs ["foo-bar"] none = .ok ⟨["foo-bar"], [("bar", .boolean true)]⟩ := rfl
example : tiniargs ["-!"] none = .ok ⟨[], []⟩ := rfl
example : tiniargs ["--aa", "--aa", "--zz"]
    (some [⟨"aa", none, none, none, "boolean"⟩]) =
    .error (.unknownFlag "zz" false) := rfl
example : tiniargs []
    (some [⟨"aa", none, some true, none, "boolean"⟩,
           ⟨"bb", none, some true, some (.boolean true), "boolean"⟩]) =
    .error (.missingRequired "aa") := rfl
example : tiniargs ["--kk=12abc"]
    (some [⟨"kk", none, none, none, "number"⟩]) =
    .ok ⟨[], [("kk", .num 12)]⟩ := rfl
example : tiniargs []
    (some [⟨"kk", none, none, some (.num 7), "number"⟩]) =
    .ok ⟨[], [("kk", .num 7)]⟩ := rfl
end Regression
